import Mathlib

/-!
Shallow embedding of the lock-operation core of `fcntl-tool`
(`src/fcntl.rs`), together with proofs about it.

The kernel side of the `fcntl` system call is modelled as an oracle
function passed in as a parameter; the two functions that issue the
syscall additionally return the list of `FcntlArg` values they handed to
that oracle, so that statements such as "no syscall is attempted" or
"only the non-blocking command is ever issued" can be expressed.

Numeric constants are the Linux `libc` values used by the source
(`F_RDLCK = 0`, `F_WRLCK = 1`, `F_UNLCK = 2`, `SEEK_SET = 0`,
`EAGAIN = 11`, `EACCES = 13`). Machine integers (`c_int`, `c_short`,
`off_t`) are modelled as `Int`; the only cast in the source that could
lose information, `off_t::try_from(u64)`, is modelled explicitly by a
range check against `2^63 - 1`.
-/

namespace FcntlTool

/-- Linux libc constant for a shared (read) record lock. -/
def F_RDLCK : Int := 0

/-- Linux libc constant for an exclusive (write) record lock. -/
def F_WRLCK : Int := 1

/-- Linux libc constant for "no lock". -/
def F_UNLCK : Int := 2

/-- Linux libc constant for seeking from the start of the file. -/
def SEEK_SET : Int := 0

/-- Linux errno for "resource temporarily unavailable". -/
def EAGAIN : Int := 11

/-- Linux errno for "permission denied". -/
def EACCES : Int := 13

/-- Largest value representable in `off_t` (a signed 64-bit integer), the
bound checked by `off_t::try_from` on a `u64` file length. -/
def off_t_max : Nat := 2 ^ 63 - 1

/-- `LockType` from `src/fcntl.rs`: the kind of lock being requested. -/
inductive LockType where
  | Write
  | Read
deriving DecidableEq, Repr

/-- `LockType::to_libc_val` from `src/fcntl.rs`. -/
def LockType.to_libc_val : LockType → Int
  | .Write => F_WRLCK
  | .Read => F_RDLCK

/-- `LockState` from `src/fcntl.rs`: the observed state of a lock. -/
inductive LockState where
  | ExclusiveWrite
  | SharedRead
  | Unlocked
deriving DecidableEq, Repr

/-- The distinct error values produced by the core (`src/fcntl.rs`).
The source uses `anyhow::Error` as a carrier; each constructor here
corresponds to one distinct error construction site in the source. -/
inductive CoreError where
  /-- The `io::Error` from a failing `file.metadata()` call,
  wrapped by `get_flock_len`. -/
  | metadataError
  /-- The `TryFromIntError` from `off_t::try_from(len)` in
  `get_flock_len`, for a length not representable in `off_t`. -/
  | lenConversionError (len : Nat)
  /-- `FileAlreadyLockedError` from `src/fcntl.rs`. -/
  | fileAlreadyLocked
  /-- The `anyhow!("error trying to get {lock_type:?} lock {e:?}")`
  value built in `try_acquire_lock` for an unexpected errno. -/
  | unexpectedSetLock (lock_type : LockType) (code : Int)
  /-- An `Errno` propagated by `?` from `fcntl` in `get_lock_state`. -/
  | errnoError (code : Int)
  /-- The `io::Error::last_os_error()` value built in `get_lock_state`
  when the syscall returns a non-zero value without failing. -/
  | lastOsError
  /-- The `anyhow!("invalid lock type {value}")` value built in
  `LockState::try_from`. -/
  | invalidLockType (value : Int)
deriving DecidableEq, Repr

/-- `impl TryFrom<libc::c_int> for LockState` from `src/fcntl.rs`. -/
def LockState.try_from (value : Int) : Except CoreError LockState :=
  if value = F_UNLCK then .ok .Unlocked
  else if value = F_WRLCK then .ok .ExclusiveWrite
  else if value = F_RDLCK then .ok .SharedRead
  else .error (.invalidLockType value)

/-- `LockScope` from `src/cli.rs`: the byte range a lock covers. -/
inductive LockScope where
  | WholeFile
  | WholeByteRange
deriving DecidableEq, Repr

/-- The only observable of a file handle the core uses: the result of its
metadata query. `none` models a failing `file.metadata()` call; `some len`
models a successful query reporting a length of `len` bytes (a `u64`). -/
structure File where
  metadata : Option Nat
deriving DecidableEq, Repr

/-- `get_flock_len` from `src/fcntl.rs`: the `l_len` value for a scope.
For `WholeByteRange` it reads the file's metadata and converts the `u64`
length to `off_t` via `off_t::try_from`. -/
def get_flock_len (scope : LockScope) (file : File) : Except CoreError Int :=
  match scope with
  | .WholeFile => .ok 0
  | .WholeByteRange =>
    match file.metadata with
    | none => .error .metadataError
    | some len =>
      if len ≤ off_t_max then .ok (len : Int)
      else .error (.lenConversionError len)

/-- The `libc::flock` control block. All fields are modelled as `Int`;
the `as libc::c_short` cast applied to `l_type` in the source is the
identity on the values `0` and `1` produced by `to_libc_val`. -/
structure Flock where
  l_type : Int
  l_whence : Int
  l_start : Int
  l_len : Int
  l_pid : Int
deriving DecidableEq, Repr

/-- `get_flock` from `src/fcntl.rs`: builds the `flock` control block. -/
def get_flock (lock_type : LockType) (len : Int) : Flock :=
  { l_type := lock_type.to_libc_val
    l_whence := SEEK_SET
    l_start := 0
    l_len := len
    l_pid := 0 }

/-- `LockOperation` from `src/fcntl.rs`: the locking strategy.
`OpenFileDescription` is gated behind `cfg(linux/android)` in the source;
availability is modelled by the `ofd_available` flag of
`LockOperation.try_from`. -/
inductive LockOperation where
  | Traditional
  | OpenFileDescription
deriving DecidableEq, Repr

/-- `cli::Command` from `src/cli.rs` (the three lock subcommands). -/
inductive Command where
  | WriteLock (file : String) (dont_use_ofd : Bool) (scope : LockScope)
  | ReadLock (file : String) (dont_use_ofd : Bool) (scope : LockScope)
  | TestLock (file : String) (dont_use_ofd : Bool) (scope : LockScope)
deriving DecidableEq, Repr

/-- The `dont_use_ofd` field (`--legacy` flag) of a command. -/
def Command.dont_use_ofd : Command → Bool
  | .WriteLock _ d _ => d
  | .ReadLock _ d _ => d
  | .TestLock _ d _ => d

/-- `impl TryFrom<&cli::Command> for LockOperation` from `src/fcntl.rs`.
The source has two bodies selected by
`cfg(any(target_os = "android", target_os = "linux"))`; the flag
`ofd_available` selects between them: `true` is the Linux/Android body
(which honours `dont_use_ofd`), `false` is the portable body (which
always picks `Traditional`). -/
def LockOperation.try_from (ofd_available : Bool) (value : Command) :
    Except CoreError LockOperation :=
  if ofd_available then
    match value with
    | .WriteLock _ dont_use_ofd _ =>
      if dont_use_ofd then .ok .Traditional else .ok .OpenFileDescription
    | .ReadLock _ dont_use_ofd _ =>
      if dont_use_ofd then .ok .Traditional else .ok .OpenFileDescription
    | .TestLock _ dont_use_ofd _ =>
      if dont_use_ofd then .ok .Traditional else .ok .OpenFileDescription
  else
    match value with
    | .WriteLock _ _ _ | .ReadLock _ _ _ | .TestLock _ _ _ => .ok .Traditional

/-- `nix::fcntl::FcntlArg`: the command constant plus the `flock`
control block handed to the syscall. Only the variants the source can
mention are modelled; the `...W` variants are the blocking forms. -/
inductive FcntlArg where
  | F_SETLK (flock : Flock)
  | F_SETLKW (flock : Flock)
  | F_OFD_SETLK (flock : Flock)
  | F_OFD_SETLKW (flock : Flock)
  | F_GETLK (flock : Flock)
  | F_OFD_GETLK (flock : Flock)
deriving DecidableEq, Repr

/-- The `flock` control block carried by an `FcntlArg`. -/
def FcntlArg.flockOf : FcntlArg → Flock
  | .F_SETLK f | .F_SETLKW f | .F_OFD_SETLK f | .F_OFD_SETLKW f
  | .F_GETLK f | .F_OFD_GETLK f => f

/-- `SetLockOperation` from `src/fcntl.rs` (newtype over `LockOperation`). -/
structure SetLockOperation where
  op : LockOperation
deriving DecidableEq, Repr

/-- `SetLockOperation::to_fcntl_arg` from `src/fcntl.rs`. -/
def SetLockOperation.to_fcntl_arg (s : SetLockOperation) (flock : Flock) :
    FcntlArg :=
  match s.op with
  | .Traditional => .F_SETLK flock
  | .OpenFileDescription => .F_OFD_SETLK flock

/-- `impl From<LockOperation> for SetLockOperation` from `src/fcntl.rs`. -/
def SetLockOperation.fromOp (value : LockOperation) : SetLockOperation :=
  ⟨value⟩

/-- `GetLockOperation` from `src/fcntl.rs` (newtype over `LockOperation`). -/
structure GetLockOperation where
  op : LockOperation
deriving DecidableEq, Repr

/-- `GetLockOperation::to_fcntl_arg` from `src/fcntl.rs`. -/
def GetLockOperation.to_fcntl_arg (s : GetLockOperation) (flock : Flock) :
    FcntlArg :=
  match s.op with
  | .Traditional => .F_GETLK flock
  | .OpenFileDescription => .F_OFD_GETLK flock

/-- `impl From<LockOperation> for GetLockOperation` from `src/fcntl.rs`. -/
def GetLockOperation.fromOp (value : LockOperation) : GetLockOperation :=
  ⟨value⟩

/-- The kernel's behaviour on a set-lock `fcntl` call: either the
syscall's return value, or an errno. -/
abbrev SetKernel := FcntlArg → Except Int Int

/-- The kernel's behaviour on a get-lock `fcntl` call: either an errno,
or the syscall's return value together with the `flock` control block as
written back through the mutable reference. -/
abbrev GetKernel := FcntlArg → Except Int (Int × Flock)

/-- `try_acquire_lock` from `src/fcntl.rs`, with the kernel as an oracle.
The second component of the result is the list of `FcntlArg` values
passed to the kernel (the issued syscalls, in order). -/
def try_acquire_lock (kernel : SetKernel) (file : File)
    (lock_type : LockType) (operation : LockOperation) (scope : LockScope) :
    Except CoreError Unit × List FcntlArg :=
  let operation := SetLockOperation.fromOp operation
  match get_flock_len scope file with
  | .error e => (.error e, [])
  | .ok flock_len =>
    let flock := get_flock lock_type flock_len
    let arg := operation.to_fcntl_arg flock
    match kernel arg with
    | .ok _ => (.ok (), [arg])
    | .error e =>
      if e = EAGAIN ∨ e = EACCES then (.error .fileAlreadyLocked, [arg])
      else (.error (.unexpectedSetLock lock_type e), [arg])

/-- `get_lock_state` from `src/fcntl.rs`, with the kernel as an oracle.
The probe control block requests a `Write` lock; the kernel overwrites
its `l_type` field, which is then decoded via `LockState.try_from`.
The second component of the result is the list of `FcntlArg` values
passed to the kernel (the issued syscalls, in order). -/
def get_lock_state (kernel : GetKernel) (file : File)
    (operation : LockOperation) (scope : LockScope) :
    Except CoreError LockState × List FcntlArg :=
  let operation := GetLockOperation.fromOp operation
  match get_flock_len scope file with
  | .error e => (.error e, [])
  | .ok flock_len =>
    let flock := get_flock .Write flock_len
    let arg := operation.to_fcntl_arg flock
    match kernel arg with
    | .error e => (.error (.errnoError e), [arg])
    | .ok (ret, flock_ret) =>
      if ret ≠ 0 then (.error .lastOsError, [arg])
      else (LockState.try_from flock_ret.l_type, [arg])

/-- Helper: the syscall trace of `try_acquire_lock` is empty when the
range computation fails, and otherwise is exactly one set-lock call built
from the resolved operation and the computed control block. -/
theorem try_acquire_lock_trace (kernel : SetKernel) (file : File)
    (lock_type : LockType) (operation : LockOperation) (scope : LockScope) :
    ((try_acquire_lock kernel file lock_type operation scope).2 = [] ∧
      ∃ e, get_flock_len scope file = .error e) ∨
    ∃ len, get_flock_len scope file = .ok len ∧
      (try_acquire_lock kernel file lock_type operation scope).2 =
        [(SetLockOperation.fromOp operation).to_fcntl_arg
          (get_flock lock_type len)] := by
  rcases hfl : get_flock_len scope file with e | len
  · left
    refine ⟨?_, e, rfl⟩
    simp [try_acquire_lock, hfl]
  · right
    refine ⟨len, rfl, ?_⟩
    simp only [try_acquire_lock, hfl]
    rcases hk : kernel ((SetLockOperation.fromOp operation).to_fcntl_arg
        (get_flock lock_type len)) with e | v
    · by_cases hc : e = EAGAIN ∨ e = EACCES <;> simp [hc]
    · rfl

/-- Helper: the syscall trace of `get_lock_state` is empty when the range
computation fails, and otherwise is exactly one get-lock call built from
the resolved operation and a probe control block requesting a write
lock. -/
theorem get_lock_state_trace (kernel : GetKernel) (file : File)
    (operation : LockOperation) (scope : LockScope) :
    ((get_lock_state kernel file operation scope).2 = [] ∧
      ∃ e, get_flock_len scope file = .error e) ∨
    ∃ len, get_flock_len scope file = .ok len ∧
      (get_lock_state kernel file operation scope).2 =
        [(GetLockOperation.fromOp operation).to_fcntl_arg
          (get_flock .Write len)] := by
  rcases hfl : get_flock_len scope file with e | len
  · left
    refine ⟨?_, e, rfl⟩
    simp [get_lock_state, hfl]
  · right
    refine ⟨len, rfl, ?_⟩
    simp only [get_lock_state, hfl]
    rcases hk : kernel ((GetLockOperation.fromOp operation).to_fcntl_arg
        (get_flock .Write len)) with e | p
    · rfl
    · obtain ⟨ret, fl⟩ := p
      by_cases hr : ret = 0 <;> simp [hr]

/-- Helper: extracting the control block from a set-lock argument gives
back the block it was built from. -/
theorem SetLockOperation.flockOf_set_fcntl_arg (s : SetLockOperation)
    (fl : Flock) : (s.to_fcntl_arg fl).flockOf = fl := by
  cases s with
  | mk op => cases op <;> rfl

/-- Helper: extracting the control block from a get-lock argument gives
back the block it was built from. -/
theorem GetLockOperation.flockOf_get_fcntl_arg (s : GetLockOperation)
    (fl : Flock) : (s.to_fcntl_arg fl).flockOf = fl := by
  cases s with
  | mk op => cases op <;> rfl

/-- C3: for scope `WholeFile`, `get_flock_len` returns length `0` for
every file — in particular the result does not depend on the file's
metadata (it is the same even for a file whose metadata query fails), so
no metadata read is performed. -/
theorem get_flock_len_whole_file (file : File) :
    get_flock_len .WholeFile file = .ok 0 := rfl

/-- C2 (counterexample): for a file whose metadata is readable and
reports a length of `2^63` bytes, `get_flock_len` with scope
`WholeByteRange` does not return the length; the `off_t::try_from`
conversion fails and the function returns that conversion error. -/
theorem get_flock_len_byte_range_counterexample :
    get_flock_len .WholeByteRange ⟨some (2 ^ 63)⟩ =
      .error (.lenConversionError (2 ^ 63)) ∧
    get_flock_len .WholeByteRange ⟨some (2 ^ 63)⟩ ≠
      .ok ((2 : Int) ^ 63) := by
  have h : get_flock_len .WholeByteRange ⟨some (2 ^ 63)⟩ =
      .error (.lenConversionError (2 ^ 63)) := by
    have hle : ¬ ((2 : Nat) ^ 63 ≤ off_t_max) := by
      simp only [off_t_max]
      omega
    simp only [get_flock_len, if_neg hle]
  refine ⟨h, ?_⟩
  rw [h]
  intro hc
  exact Except.noConfusion hc

/-- C2 (amended): for every file whose metadata is readable and reports a
length `L` representable in `off_t` (`L ≤ 2^63 - 1`), `get_flock_len`
with scope `WholeByteRange` returns exactly `L`; for a readable length
beyond `off_t` it returns the conversion error; and for a file whose
metadata query fails it returns the metadata error. -/
theorem get_flock_len_byte_range_amended (file : File) :
    (∀ L, file.metadata = some L → L ≤ off_t_max →
      get_flock_len .WholeByteRange file = .ok (L : Int)) ∧
    (∀ L, file.metadata = some L → off_t_max < L →
      get_flock_len .WholeByteRange file =
        .error (.lenConversionError L)) ∧
    (file.metadata = none →
      get_flock_len .WholeByteRange file = .error .metadataError) := by
  refine ⟨?_, ?_, ?_⟩
  · intro L hm hL
    simp [get_flock_len, hm, hL]
  · intro L hm hL
    have hle : ¬ (L ≤ off_t_max) := by omega
    simp [get_flock_len, hm, hle]
  · intro hm
    simp [get_flock_len, hm]

/-- C2 (witness for the amended claim) at a file of length 5 and a file
with failing metadata. -/
theorem get_flock_len_byte_range_amended_witness :
    get_flock_len .WholeByteRange ⟨some 5⟩ = .ok 5 ∧
    get_flock_len .WholeByteRange ⟨none⟩ = .error .metadataError :=
  ⟨(get_flock_len_byte_range_amended ⟨some 5⟩).1 5 rfl
      (by simp only [off_t_max]; omega),
    (get_flock_len_byte_range_amended ⟨none⟩).2.2 rfl⟩

/-- C7: the decoder `LockState.try_from` maps each of the three defined
libc lock-type values to the corresponding state, and maps every other
integer to the distinct `invalidLockType` error carrying that value —
never coercing an unknown value into one of the three states. -/
theorem lock_state_try_from_spec (value : Int) :
    (value = F_UNLCK → LockState.try_from value = .ok .Unlocked) ∧
    (value = F_WRLCK → LockState.try_from value = .ok .ExclusiveWrite) ∧
    (value = F_RDLCK → LockState.try_from value = .ok .SharedRead) ∧
    (value ≠ F_UNLCK → value ≠ F_WRLCK → value ≠ F_RDLCK →
      LockState.try_from value = .error (.invalidLockType value)) := by
  refine ⟨?_, ?_, ?_, ?_⟩
  · rintro rfl; rfl
  · rintro rfl; rfl
  · rintro rfl; rfl
  · intro h0 h1 h2
    simp [LockState.try_from, h0, h1, h2]

/-- C7 (witness) at the three defined values and the undefined value 42. -/
theorem lock_state_try_from_spec_witness :
    LockState.try_from 2 = .ok .Unlocked ∧
    LockState.try_from 1 = .ok .ExclusiveWrite ∧
    LockState.try_from 0 = .ok .SharedRead ∧
    LockState.try_from 42 = .error (.invalidLockType 42) :=
  ⟨(lock_state_try_from_spec 2).1 rfl,
    (lock_state_try_from_spec 1).2.1 rfl,
    (lock_state_try_from_spec 0).2.2.1 rfl,
    (lock_state_try_from_spec 42).2.2.2 (by decide) (by decide) (by decide)⟩

/-- C8: strategy resolution is total and never fails — for every lock
command (write-lock, read-lock, test-lock) and every platform capability,
it returns `Traditional` exactly when the caller requested legacy locking
or OFD locks are unavailable, and `OpenFileDescription` otherwise, always
wrapped in `ok`. -/
theorem lock_operation_try_from_total (ofd_available : Bool)
    (value : Command) :
    LockOperation.try_from ofd_available value =
      .ok (if value.dont_use_ofd || !ofd_available then .Traditional
        else .OpenFileDescription) := by
  rcases value with ⟨f, d, s⟩ | ⟨f, d, s⟩ | ⟨f, d, s⟩ <;>
    cases ofd_available <;> cases d <;> rfl

/-- C10: decoding the libc encoding of each requestable lock type yields
the matching observed state — `Write` round-trips to `ExclusiveWrite` and
`Read` to `SharedRead`, never `Unlocked` and never an error. -/
theorem lock_type_round_trip :
    LockState.try_from LockType.Write.to_libc_val = .ok .ExclusiveWrite ∧
    LockState.try_from LockType.Read.to_libc_val = .ok .SharedRead :=
  ⟨rfl, rfl⟩

/-- C1: whenever `try_acquire_lock` reaches the set-lock syscall (the
range computation succeeded), its result is determined by the kernel's
answer: success maps to `ok ()`, errno `EAGAIN` or `EACCES` maps to the
already-locked error, and any other errno maps to the distinct
unexpected-failure error carrying the raw code — for every lock type,
strategy and scope. -/
theorem try_acquire_lock_errno_mapping (kernel : SetKernel) (file : File)
    (lock_type : LockType) (operation : LockOperation) (scope : LockScope)
    (len : Int) (hlen : get_flock_len scope file = .ok len) :
    (∀ v, kernel ((SetLockOperation.fromOp operation).to_fcntl_arg
        (get_flock lock_type len)) = .ok v →
      (try_acquire_lock kernel file lock_type operation scope).1 =
        .ok ()) ∧
    (∀ e, kernel ((SetLockOperation.fromOp operation).to_fcntl_arg
        (get_flock lock_type len)) = .error e →
      (e = EAGAIN ∨ e = EACCES) →
      (try_acquire_lock kernel file lock_type operation scope).1 =
        .error .fileAlreadyLocked) ∧
    (∀ e, kernel ((SetLockOperation.fromOp operation).to_fcntl_arg
        (get_flock lock_type len)) = .error e →
      ¬ (e = EAGAIN ∨ e = EACCES) →
      (try_acquire_lock kernel file lock_type operation scope).1 =
        .error (.unexpectedSetLock lock_type e)) := by
  refine ⟨?_, ?_, ?_⟩
  · intro v hv
    simp [try_acquire_lock, hlen, hv]
  · intro e he hc
    simp [try_acquire_lock, hlen, he, hc]
  · intro e he hc
    simp [try_acquire_lock, hlen, he, hc]

/-- C1 (witness): a kernel that fails with `EAGAIN` makes a concrete
acquisition return the already-locked error. -/
theorem try_acquire_lock_errno_mapping_witness :
    (try_acquire_lock (fun _ => .error EAGAIN) ⟨some 0⟩ .Write
        .Traditional .WholeFile).1 = .error .fileAlreadyLocked :=
  (try_acquire_lock_errno_mapping (fun _ => .error EAGAIN) ⟨some 0⟩
      .Write .Traditional .WholeFile 0 rfl).2.1 EAGAIN rfl (Or.inl rfl)

/-- C4: for scope `WholeByteRange` on a file whose metadata cannot be
read, `try_acquire_lock` returns the metadata error and its syscall trace
is empty — no fcntl call is issued, so no lock-state change is ever
attempted, for every kernel, lock type and strategy. -/
theorem try_acquire_lock_no_syscall_on_metadata_error (kernel : SetKernel)
    (file : File) (lock_type : LockType) (operation : LockOperation)
    (hmeta : file.metadata = none) :
    try_acquire_lock kernel file lock_type operation .WholeByteRange =
      (.error .metadataError, []) := by
  simp [try_acquire_lock, get_flock_len, hmeta]

/-- C4 (witness) at a file with failing metadata and a kernel that would
always succeed. -/
theorem try_acquire_lock_no_syscall_on_metadata_error_witness :
    try_acquire_lock (fun _ => .ok 0) ⟨none⟩ .Write .Traditional
      .WholeByteRange = (.error .metadataError, []) :=
  try_acquire_lock_no_syscall_on_metadata_error (fun _ => .ok 0) ⟨none⟩
    .Write .Traditional rfl

/-- C5: every fcntl argument `try_acquire_lock` ever passes to the kernel
is a non-blocking set-lock command matching the strategy — `F_SETLK` for
`Traditional`, `F_OFD_SETLK` for `OpenFileDescription` — and never any
other command (in particular never a blocking `...W` wait variant). -/
theorem try_acquire_lock_command_selection (kernel : SetKernel)
    (file : File) (lock_type : LockType) (operation : LockOperation)
    (scope : LockScope) (a : FcntlArg)
    (ha : a ∈ (try_acquire_lock kernel file lock_type operation scope).2) :
    ∃ fl, (operation = .Traditional ∧ a = .F_SETLK fl) ∨
      (operation = .OpenFileDescription ∧ a = .F_OFD_SETLK fl) := by
  rcases try_acquire_lock_trace kernel file lock_type operation scope with
    ⟨h0, _⟩ | ⟨len, _, htr⟩
  · rw [h0] at ha
    simp at ha
  · rw [htr] at ha
    have haa := List.mem_singleton.mp ha
    subst haa
    cases operation with
    | Traditional =>
      exact ⟨get_flock lock_type len, Or.inl ⟨rfl, rfl⟩⟩
    | OpenFileDescription =>
      exact ⟨get_flock lock_type len, Or.inr ⟨rfl, rfl⟩⟩

/-- C5 (witness): in a concrete acquisition with the `Traditional`
strategy, the one issued argument is an `F_SETLK` command. -/
theorem try_acquire_lock_command_selection_witness :
    ∃ fl, (LockOperation.Traditional = .Traditional ∧
        FcntlArg.F_SETLK (get_flock .Write 0) = .F_SETLK fl) ∨
      (LockOperation.Traditional = .OpenFileDescription ∧
        FcntlArg.F_SETLK (get_flock .Write 0) = .F_OFD_SETLK fl) :=
  try_acquire_lock_command_selection (fun _ => .ok 0) ⟨some 0⟩ .Write
    .Traditional .WholeFile (.F_SETLK (get_flock .Write 0)) (by decide)

/-- C6: whenever the range computation succeeds, `get_lock_state` builds
a probe control block requesting a `Write` (exclusive) lock over the
computed range, issues exactly one get-lock command selected by strategy
(`F_GETLK` for `Traditional`, `F_OFD_GETLK` for `OpenFileDescription`),
and, when the kernel succeeds with return value 0, its result is the
decoding of the lock-type field the kernel wrote back. -/
theorem get_lock_state_spec (kernel : GetKernel) (file : File)
    (operation : LockOperation) (scope : LockScope) (len : Int)
    (hlen : get_flock_len scope file = .ok len) :
    (get_flock LockType.Write len).l_type = F_WRLCK ∧
    (get_flock LockType.Write len).l_len = len ∧
    (get_lock_state kernel file operation scope).2 =
      [(GetLockOperation.fromOp operation).to_fcntl_arg
        (get_flock LockType.Write len)] ∧
    (GetLockOperation.fromOp LockOperation.Traditional).to_fcntl_arg
        (get_flock LockType.Write len) =
      .F_GETLK (get_flock LockType.Write len) ∧
    (GetLockOperation.fromOp
        LockOperation.OpenFileDescription).to_fcntl_arg
        (get_flock LockType.Write len) =
      .F_OFD_GETLK (get_flock LockType.Write len) ∧
    (∀ ret fl,
      kernel ((GetLockOperation.fromOp operation).to_fcntl_arg
        (get_flock LockType.Write len)) = .ok (ret, fl) → ret = 0 →
      (get_lock_state kernel file operation scope).1 =
        LockState.try_from fl.l_type) := by
  refine ⟨rfl, rfl, ?_, rfl, rfl, ?_⟩
  · rcases get_lock_state_trace kernel file operation scope with
      ⟨_, e, hfl⟩ | ⟨len2, hfl, htr⟩
    · rw [hlen] at hfl
      exact Except.noConfusion hfl
    · rw [hlen] at hfl
      obtain rfl : len2 = len := (Except.ok.injEq _ _ ▸ hfl.symm)
      exact htr
  · intro ret fl hk hret
    subst hret
    simp [get_lock_state, hlen, hk]

/-- C6 (witness): a concrete query whose kernel reports an exclusive
write lock decodes through `LockState.try_from`. -/
theorem get_lock_state_spec_witness :
    (get_lock_state (fun _ => .ok (0, ⟨1, 0, 0, 0, 0⟩)) ⟨some 0⟩
        .Traditional .WholeFile).1 = LockState.try_from 1 :=
  (get_lock_state_spec (fun _ => .ok (0, ⟨1, 0, 0, 0, 0⟩)) ⟨some 0⟩
      .Traditional .WholeFile 0 rfl).2.2.2.2.2 0 ⟨1, 0, 0, 0, 0⟩ rfl rfl

/-- C9: every control block either syscall path passes to the kernel has
the fixed layout — start offset 0, whence `SEEK_SET`, pid 0, lock type
the requested kind's libc value (the probe of a query requests `Write`),
and length the computed range length, which is 0 for the whole-file
scope. -/
theorem flock_descriptor_layout (skernel : SetKernel) (gkernel : GetKernel)
    (file : File) (lock_type : LockType) (operation : LockOperation)
    (scope : LockScope) (a b : FcntlArg)
    (ha : a ∈ (try_acquire_lock skernel file lock_type operation scope).2)
    (hb : b ∈ (get_lock_state gkernel file operation scope).2) :
    ∃ len, get_flock_len scope file = .ok len ∧
      (scope = .WholeFile → len = 0) ∧
      a.flockOf = ⟨lock_type.to_libc_val, SEEK_SET, 0, len, 0⟩ ∧
      b.flockOf = ⟨LockType.Write.to_libc_val, SEEK_SET, 0, len, 0⟩ := by
  rcases try_acquire_lock_trace skernel file lock_type operation scope with
    ⟨h0, _⟩ | ⟨len, hfl, htr⟩
  · rw [h0] at ha
    simp at ha
  · rcases get_lock_state_trace gkernel file operation scope with
      ⟨_, e, hfl2⟩ | ⟨len2, hfl2, htr2⟩
    · rw [hfl] at hfl2
      exact Except.noConfusion hfl2
    · rw [hfl] at hfl2
      have hlen2 : len2 = len := by
        injection hfl2 with h
        exact h.symm
      rw [hlen2] at htr2
      rw [htr] at ha
      rw [htr2] at hb
      obtain rfl := List.mem_singleton.mp ha
      obtain rfl := List.mem_singleton.mp hb
      refine ⟨len, hfl, ?_, ?_, ?_⟩
      · rintro rfl
        have h0 : Except.ok (ε := CoreError) (0 : Int) = .ok len := hfl
        injection h0 with h
        exact h.symm
      · rw [SetLockOperation.flockOf_set_fcntl_arg]
        rfl
      · rw [GetLockOperation.flockOf_get_fcntl_arg]
        rfl

/-- C9 (witness): a concrete acquisition and query on the whole file,
both issued arguments carry the fixed-layout control block with
length 0. -/
theorem flock_descriptor_layout_witness :
    ∃ len, get_flock_len .WholeFile ⟨some 0⟩ = .ok len ∧
      (LockScope.WholeFile = .WholeFile → len = 0) ∧
      (FcntlArg.F_SETLK (get_flock .Write 0)).flockOf =
        ⟨LockType.Write.to_libc_val, SEEK_SET, 0, len, 0⟩ ∧
      (FcntlArg.F_GETLK (get_flock .Write 0)).flockOf =
        ⟨LockType.Write.to_libc_val, SEEK_SET, 0, len, 0⟩ :=
  flock_descriptor_layout (fun _ => .ok 0)
    (fun _ => .ok (0, ⟨2, 0, 0, 0, 0⟩)) ⟨some 0⟩ .Write .Traditional
    .WholeFile (.F_SETLK (get_flock .Write 0))
    (.F_GETLK (get_flock .Write 0)) (by decide) (by decide)

end FcntlTool
